import Mathlib

/-!
Verification of the boat-race telemetry core (`src/domain/tracks/index.ts`,
`src/domain/parsing/csv.ts`) against its natural-language specification.

Modelling conventions:
* JavaScript `number`s that the code has already validated to be ordinary
  finite values are modelled as `ℚ` (the claims under study are about the
  algorithms' branch structure and exact arithmetic identities, not about
  float rounding).
* Where NaN / ±Infinity are observable (the results of `parseFloat` and the
  timestamp normalizer in the CSV layer), numbers are modelled by `JSNum`,
  which carries those special values explicitly.
* `Array.prototype.sort` with the comparator `(a, b) => a.t - b.t` is
  modelled by `List.insertionSort (·.t ≤ ·.t)`: a sort that is correct
  (sorted output, permutation of the input); no claim below observes the
  relative order of equal keys.
* Fallible operations return `Option` / `Except`.
-/

/-- One telemetry sample (`TrackPoint` in `src/domain/types.ts`): timestamp
`t` in epoch milliseconds, position, and the optional speed / course / wind
fields.  The "bag of extra fields" is not carried here because the track
layer never reads it. -/
structure TrackPoint where
  t : ℚ
  lat : ℚ
  lon : ℚ
  sog : Option ℚ := none
  cog : Option ℚ := none
  twd : Option ℚ := none
  awa : Option ℚ := none
  twa : Option ℚ := none
deriving DecidableEq

/-- A vehicle track (`BoatTrack`): merge key `id`, display name, color token,
and the ordered sample list. -/
structure BoatTrack where
  id : String
  name : String
  color : String
  points : List TrackPoint
deriving DecidableEq

/-- A dataset (`RaceDataset`): tracks plus the global time extent. -/
structure RaceDataset where
  boats : List BoatTrack
  tMin : ℚ
  tMax : ℚ
deriving DecidableEq

/-- `interpolateAngle` from `src/domain/tracks/index.ts`: wrap-around-aware
interpolation between two bearings.  The two `if`s on `diff` and the two
`if`s on `result` are sequential in the source (each second test sees the
updated value), which the nested `let`s reproduce exactly. -/
def interpolateAngle (angle1 angle2 r : ℚ) : ℚ :=
  let diff0 := angle2 - angle1
  let diff1 := if diff0 > 180 then diff0 - 360 else diff0
  let diff := if diff1 < -180 then diff1 + 360 else diff1
  let result0 := angle1 + diff * r
  let result1 := if result0 < 0 then result0 + 360 else result0
  if result1 ≥ 360 then result1 - 360 else result1

/-- The interpolated `TrackPoint` literal built inside `interpolatePosition`
when `p1.t < t < p2.t`: linear lat/lon/sog/cog, angular wind fields with
one-sided carry-forward. -/
def mkInterpPoint (p1 p2 : TrackPoint) (t : ℚ) : TrackPoint :=
  let r := (t - p1.t) / (p2.t - p1.t)
  { t := t
    lat := p1.lat + (p2.lat - p1.lat) * r
    lon := p1.lon + (p2.lon - p1.lon) * r
    sog := match p1.sog, p2.sog with
           | some a, some b => some (a + (b - a) * r)
           | _, _ => none
    cog := match p1.cog, p2.cog with
           | some a, some b => some (a + (b - a) * r)
           | _, _ => none
    twd := match p1.twd, p2.twd with
           | some a, some b => some (interpolateAngle a b r)
           | some a, none => some a
           | none, some b => some b
           | none, none => none
    awa := match p1.awa, p2.awa with
           | some a, some b => some (interpolateAngle a b r)
           | some a, none => some a
           | none, some b => some b
           | none, none => none
    twa := match p1.twa, p2.twa with
           | some a, some b => some (interpolateAngle a b r)
           | some a, none => some a
           | none, some b => some b
           | none, none => none }

/-- Result record of `interpolatePosition`: `{ lat, lon, point? }`.  Every
return site of the source fills `point`, but the TypeScript type marks it
optional, so it is an `Option` here too. -/
structure InterpResult where
  lat : ℚ
  lon : ℚ
  point : Option TrackPoint
deriving DecidableEq

/-- The scan loop of `interpolatePosition` (`for i in 0 .. length-2`): for
each consecutive pair, return on exact timestamp match or on a strict
bracket; `none` means the loop fell through. -/
def interpLoop (t : ℚ) : List TrackPoint → Option InterpResult
  | p1 :: p2 :: rest =>
    if t = p1.t then some ⟨p1.lat, p1.lon, some p1⟩
    else if t = p2.t then some ⟨p2.lat, p2.lon, some p2⟩
    else if p1.t < t ∧ t < p2.t then
      let q := mkInterpPoint p1 p2 t
      some ⟨q.lat, q.lon, some q⟩
    else interpLoop t (p2 :: rest)
  | _ => none

/-- `interpolatePosition` from `src/domain/tracks/index.ts` (the
`profiler.measure` wrapper, which just invokes its thunk, is dropped):
boundary checks, the scan loop, then the fall-back to the last point. -/
def interpolatePosition (boat : BoatTrack) (t : ℚ) : Option InterpResult :=
  match boat.points with
  | [] => none
  | p :: ps =>
    if t < p.t then none
    else if t > (ps.getLastD p).t then none
    else
      match interpLoop t (p :: ps) with
      | some r => some r
      | none =>
        let last := ps.getLastD p
        some ⟨last.lat, last.lon, some last⟩

lemma interpolatePosition_nil {boat : BoatTrack} (t : ℚ)
    (h : boat.points = []) : interpolatePosition boat t = none := by
  unfold interpolatePosition
  rw [h]

lemma interpolatePosition_cons {boat : BoatTrack} (t : ℚ)
    {p : TrackPoint} {ps : List TrackPoint} (h : boat.points = p :: ps) :
    interpolatePosition boat t =
      if t < p.t then none
      else if t > (ps.getLastD p).t then none
      else
        match interpLoop t (p :: ps) with
        | some r => some r
        | none =>
          some ⟨(ps.getLastD p).lat, (ps.getLastD p).lon,
                some (ps.getLastD p)⟩ := by
  unfold interpolatePosition
  rw [h]

lemma head_t_le_of_mem {p s : TrackPoint} {ps : List TrackPoint}
    (hs : List.Pairwise (fun a b => a.t < b.t) (p :: ps)) (hm : s ∈ p :: ps) :
    p.t ≤ s.t := by
  rcases List.mem_cons.mp hm with h | h
  · exact h ▸ le_refl _
  · exact le_of_lt ((List.pairwise_cons.mp hs).1 s h)

lemma t_le_getLastD_of_mem :
    ∀ {ps : List TrackPoint} {p s : TrackPoint},
      List.Pairwise (fun a b : TrackPoint => a.t < b.t) (p :: ps) →
      s ∈ p :: ps → s.t ≤ (ps.getLastD p).t := by
  intro ps
  induction ps with
  | nil =>
    intro p s _ hm
    rcases List.mem_cons.mp hm with h | h
    · simp [h]
    · simp at h
  | cons q ps' ih =>
    intro p s hs hm
    have hs' : List.Pairwise (fun a b : TrackPoint => a.t < b.t) (q :: ps') :=
      (List.pairwise_cons.mp hs).2
    rw [List.getLastD_cons]
    rcases List.mem_cons.mp hm with h | h
    · have hq : q.t ≤ (ps'.getLastD q).t := ih hs' (List.mem_cons_self q ps')
      have hpq : p.t < q.t := (List.pairwise_cons.mp hs).1 q (List.mem_cons_self q ps')
      exact h ▸ le_of_lt (lt_of_lt_of_le hpq hq)
    · exact ih hs' h

lemma interpLoop_exact :
    ∀ (rest : List TrackPoint) (p1 p2 s : TrackPoint),
      List.Pairwise (fun a b : TrackPoint => a.t < b.t) (p1 :: p2 :: rest) →
      s ∈ p1 :: p2 :: rest →
      interpLoop s.t (p1 :: p2 :: rest) = some ⟨s.lat, s.lon, some s⟩ := by
  intro rest
  induction rest with
  | nil =>
    intro p1 p2 s hs hm
    have h12 : p1.t < p2.t :=
      (List.pairwise_cons.mp hs).1 p2 (List.mem_cons_self p2 [])
    rcases List.mem_cons.mp hm with h | h
    · subst h
      rw [interpLoop, if_pos rfl]
    · have h2 : s = p2 := by simpa using h
      subst h2
      rw [interpLoop, if_neg (ne_of_gt h12), if_pos rfl]
  | cons q rest' ih =>
    intro p1 p2 s hs hm
    have hcons := List.pairwise_cons.mp hs
    have hcons2 := List.pairwise_cons.mp hcons.2
    have h12 : p1.t < p2.t := hcons.1 p2 (List.mem_cons_self p2 _)
    rcases List.mem_cons.mp hm with h | h
    · subst h
      rw [interpLoop, if_pos rfl]
    · rcases List.mem_cons.mp h with h2 | h3
      · subst h2
        rw [interpLoop, if_neg (ne_of_gt h12), if_pos rfl]
      · -- s is strictly after p2
        have hst1 : p1.t < s.t := hcons.1 s (List.mem_cons_of_mem p2 h3)
        have hst2 : p2.t < s.t := hcons2.1 s h3
        rw [interpLoop, if_neg (ne_of_gt hst1), if_neg (ne_of_gt hst2),
          if_neg (by push_neg; intro _; exact le_of_lt hst2)]
        exact ih p2 q s hcons.2 (List.mem_cons_of_mem p2 h3)

/-- C2 (amended): on a track whose samples have strictly increasing
timestamps, querying `interpolateAt` at any sample's exact timestamp returns
that sample's stored position and fields verbatim — including a one-sample
track and the last sample. -/
theorem interpolatePosition_exact_match (boat : BoatTrack) (s : TrackPoint)
    (hs : List.Pairwise (fun a b : TrackPoint => a.t < b.t) boat.points)
    (hm : s ∈ boat.points) :
    interpolatePosition boat s.t = some ⟨s.lat, s.lon, some s⟩ := by
  match hp : boat.points with
  | [] => rw [hp] at hm; simp at hm
  | p :: ps =>
    rw [hp] at hs hm
    rw [interpolatePosition_cons s.t hp,
      if_neg (not_lt.mpr (head_t_le_of_mem hs hm)),
      if_neg (not_lt.mpr (t_le_getLastD_of_mem hs hm))]
    match ps with
    | [] =>
      have h : s = p := by simpa using hm
      subst h
      rw [show interpLoop s.t [s] = none from rfl]
      rfl
    | q :: ps' =>
      rw [interpLoop_exact ps' p q s hs hm]

/-- Selector for the three wind-direction fields, used to state one claim
uniformly over `twd`, `awa` and `twa`. -/
inductive WindField where
  | twd
  | awa
  | twa
deriving DecidableEq

/-- Project the selected wind-direction field out of a sample. -/
def TrackPoint.wind (p : TrackPoint) : WindField → Option ℚ
  | .twd => p.twd
  | .awa => p.awa
  | .twa => p.twa

/-- The `point` carried by an interpolation result, if any. -/
def resultPoint : Option InterpResult → Option TrackPoint
  | some r => r.point
  | none => none

/-- The selected wind field of the `point` carried by an interpolation
result, if any. -/
def resultWind (f : WindField) (o : Option InterpResult) : Option ℚ :=
  match resultPoint o with
  | some q => q.wind f
  | none => none

lemma mkInterpPoint_wind (p1 p2 : TrackPoint) (t : ℚ) (f : WindField) :
    (mkInterpPoint p1 p2 t).wind f =
      match p1.wind f, p2.wind f with
      | some a, some b => some (interpolateAngle a b ((t - p1.t) / (p2.t - p1.t)))
      | some a, none => some a
      | none, some b => some b
      | none, none => none := by
  cases f <;> rfl

/-- Written from the claim's wording (as amended): the signed angle
difference is brought into [-180, 180] by subtracting 360 when above 180
and adding 360 when below -180; a difference of exactly -180 or 180 is left
unchanged. -/
def wrapDiffSpec (d : ℚ) : ℚ :=
  if d > 180 then d - 360 else if d < -180 then d + 360 else d

/-- Written from the claim's wording: wrap once into [0, 360) by adding 360
to a negative value and subtracting 360 from a value ≥ 360. -/
def wrapTo360Spec (x : ℚ) : ℚ :=
  if x < 0 then x + 360 else if x ≥ 360 then x - 360 else x

/-- Written from the original claim's wording: wrap the signed difference
into the half-open interval (-180, 180], so a difference of exactly -180
is mapped to 180.  (The code does not do this; see the counterexample.) -/
def wrapDiffClaim (d : ℚ) : ℚ :=
  if d > 180 then d - 360 else if d ≤ -180 then d + 360 else d

lemma interpolateAngle_eq_spec (a1 a2 r : ℚ) :
    interpolateAngle a1 a2 r = wrapTo360Spec (a1 + wrapDiffSpec (a2 - a1) * r) := by
  simp only [interpolateAngle, wrapTo360Spec, wrapDiffSpec]
  split_ifs <;> linarith

lemma interpLoop_bracket :
    ∀ (pre : List TrackPoint) (p1 p2 : TrackPoint) (suf : List TrackPoint) (t : ℚ),
      List.Pairwise (fun a b : TrackPoint => a.t < b.t) (pre ++ p1 :: p2 :: suf) →
      p1.t < t → t < p2.t →
      interpLoop t (pre ++ p1 :: p2 :: suf) =
        some ⟨(mkInterpPoint p1 p2 t).lat, (mkInterpPoint p1 p2 t).lon,
              some (mkInterpPoint p1 p2 t)⟩ := by
  intro pre
  induction pre with
  | nil =>
    intro p1 p2 suf t _ h1 h2
    rw [List.nil_append, interpLoop, if_neg (ne_of_gt h1), if_neg (ne_of_lt h2),
      if_pos ⟨h1, h2⟩]
  | cons q pre' ih =>
    intro p1 p2 suf t hs h1 h2
    rw [List.cons_append] at hs ⊢
    have hcons := List.pairwise_cons.mp hs
    have hqp1 : q.t < p1.t := hcons.1 p1 (by simp)
    cases pre' with
    | nil =>
      simp only [List.nil_append] at hcons ⊢
      rw [interpLoop, if_neg (ne_of_gt (lt_trans hqp1 h1)),
        if_neg (ne_of_gt h1),
        if_neg (by push_neg; intro _; exact le_of_lt h1)]
      simpa using ih p1 p2 suf t (by simpa using hcons.2) h1 h2
    | cons w pre'' =>
      rw [List.cons_append] at hcons ⊢
      have hmem1 : p1 ∈ w :: (pre'' ++ p1 :: p2 :: suf) := by simp
      have hw : w.t ≤ p1.t := head_t_le_of_mem hcons.2 hmem1
      rw [interpLoop, if_neg (ne_of_gt (lt_trans hqp1 h1)),
        if_neg (ne_of_gt (lt_of_le_of_lt hw h1)),
        if_neg (by push_neg; intro _; exact le_of_lt (lt_of_le_of_lt hw h1))]
      have hrec := ih p1 p2 suf t (by rw [List.cons_append]; exact hcons.2) h1 h2
      rw [List.cons_append] at hrec
      exact hrec

lemma interpolatePosition_bracket (boat : BoatTrack) (t : ℚ)
    (pre suf : List TrackPoint) (p1 p2 : TrackPoint)
    (hs : List.Pairwise (fun a b : TrackPoint => a.t < b.t) boat.points)
    (hpair : boat.points = pre ++ p1 :: p2 :: suf)
    (h1 : p1.t < t) (h2 : t < p2.t) :
    interpolatePosition boat t =
      some ⟨(mkInterpPoint p1 p2 t).lat, (mkInterpPoint p1 p2 t).lon,
            some (mkInterpPoint p1 p2 t)⟩ := by
  have hm1 : p1 ∈ boat.points := by rw [hpair]; simp
  have hm2 : p2 ∈ boat.points := by rw [hpair]; simp
  match hp : boat.points with
  | [] => rw [hp] at hm1; simp at hm1
  | p :: ps =>
    rw [hp] at hs hm1 hm2
    have hpair' : p :: ps = pre ++ p1 :: p2 :: suf := hp ▸ hpair
    rw [interpolatePosition_cons t hp,
      if_neg (not_lt.mpr (le_trans (head_t_le_of_mem hs hm1) (le_of_lt h1))),
      if_neg (not_lt.mpr (le_trans (le_of_lt h2) (t_le_getLastD_of_mem hs hm2)))]
    rw [show interpLoop t (p :: ps) =
        some ⟨(mkInterpPoint p1 p2 t).lat, (mkInterpPoint p1 p2 t).lon,
              some (mkInterpPoint p1 p2 t)⟩ from by
      rw [hpair']
      exact interpLoop_bracket pre p1 p2 suf t (hpair' ▸ hs) h1 h2]

/-- C1 (amended): interpolating a wind-direction field strictly between two
consecutive samples that both define it (with stored values inside
[0, 360)) wraps the signed difference `p2.value - p1.value` into the closed
interval [-180, 180] — a difference of exactly ±180 is left as-is, not
canonicalized to 180 — scales it by `ratio`, adds `p1.value`, and wraps the
sum into [0, 360). -/
theorem interpolateAt_wind_circular (boat : BoatTrack) (t : ℚ)
    (pre suf : List TrackPoint) (p1 p2 : TrackPoint) (f : WindField) (a1 a2 : ℚ)
    (hs : List.Pairwise (fun a b : TrackPoint => a.t < b.t) boat.points)
    (hpair : boat.points = pre ++ p1 :: p2 :: suf)
    (h1 : p1.t < t) (h2 : t < p2.t)
    (hf1 : p1.wind f = some a1) (hf2 : p2.wind f = some a2)
    (ha1l : 0 ≤ a1) (ha1u : a1 < 360) (ha2l : 0 ≤ a2) (ha2u : a2 < 360) :
    (-180 ≤ wrapDiffSpec (a2 - a1) ∧ wrapDiffSpec (a2 - a1) ≤ 180) ∧
    resultWind f (interpolatePosition boat t) =
      some (wrapTo360Spec (a1 + wrapDiffSpec (a2 - a1) * ((t - p1.t) / (p2.t - p1.t)))) ∧
    0 ≤ wrapTo360Spec (a1 + wrapDiffSpec (a2 - a1) * ((t - p1.t) / (p2.t - p1.t))) ∧
    wrapTo360Spec (a1 + wrapDiffSpec (a2 - a1) * ((t - p1.t) / (p2.t - p1.t))) < 360 := by
  have hwl : -180 ≤ wrapDiffSpec (a2 - a1) := by
    unfold wrapDiffSpec; split_ifs <;> linarith
  have hwu : wrapDiffSpec (a2 - a1) ≤ 180 := by
    unfold wrapDiffSpec; split_ifs <;> linarith
  have hrpos : 0 < (t - p1.t) / (p2.t - p1.t) :=
    div_pos (by linarith) (by linarith)
  have hrlt : (t - p1.t) / (p2.t - p1.t) < 1 :=
    (div_lt_one (by linarith)).mpr (by linarith)
  have hprodl : -180 < wrapDiffSpec (a2 - a1) * ((t - p1.t) / (p2.t - p1.t)) := by
    have hstep : (-180 : ℚ) * ((t - p1.t) / (p2.t - p1.t)) ≤
        wrapDiffSpec (a2 - a1) * ((t - p1.t) / (p2.t - p1.t)) :=
      mul_le_mul_of_nonneg_right hwl (le_of_lt hrpos)
    nlinarith
  have hprodu : wrapDiffSpec (a2 - a1) * ((t - p1.t) / (p2.t - p1.t)) < 180 := by
    have hstep : wrapDiffSpec (a2 - a1) * ((t - p1.t) / (p2.t - p1.t)) ≤
        (180 : ℚ) * ((t - p1.t) / (p2.t - p1.t)) :=
      mul_le_mul_of_nonneg_right hwu (le_of_lt hrpos)
    nlinarith
  refine ⟨⟨hwl, hwu⟩, ?_, ?_, ?_⟩
  · rw [interpolatePosition_bracket boat t pre suf p1 p2 hs hpair h1 h2]
    show (mkInterpPoint p1 p2 t).wind f = _
    rw [mkInterpPoint_wind, hf1, hf2]
    show some (interpolateAngle a1 a2 ((t - p1.t) / (p2.t - p1.t))) = _
    rw [interpolateAngle_eq_spec]
  · unfold wrapTo360Spec; split_ifs <;> linarith
  · unfold wrapTo360Spec; split_ifs <;> linarith

/-- Track used to refute C1's (-180, 180] wrapping claim: the twd values
180 and 0 differ by exactly -180. -/
def c1Boat : BoatTrack :=
  { id := "B", name := "B", color := "c",
    points := [{ t := 0, lat := 0, lon := 0, twd := some 180 },
               { t := 10, lat := 0, lon := 0, twd := some 0 }] }

/-- C1 (counterexample to the claim as stated): between twd = 180 and
twd = 0 at ratio 1/2 the code leaves the difference -180 unwrapped and
yields 90, while wrapping -180 into (-180, 180] as the claim states would
yield 270. -/
theorem interpolateAt_wind_circular_counterexample :
    resultWind WindField.twd (interpolatePosition c1Boat 5) = some 90 ∧
    wrapTo360Spec (180 + wrapDiffClaim ((0 : ℚ) - 180) * ((5 - 0) / (10 - 0))) = 270 ∧
    (90 : ℚ) ≠ 270 := by
  refine ⟨?_, by norm_num [wrapTo360Spec, wrapDiffClaim], by norm_num⟩
  have h : resultWind WindField.twd (interpolatePosition c1Boat 5) =
      some (interpolateAngle 180 0 ((5 - 0) / (10 - 0))) := rfl
  rw [h, interpolateAngle_eq_spec]
  norm_num [wrapTo360Spec, wrapDiffSpec]

/-- First sample of the C1 witness track (twd 350). -/
def c1P1 : TrackPoint := { t := 0, lat := 0, lon := 0, twd := some 350 }

/-- Second sample of the C1 witness track (twd 10). -/
def c1P2 : TrackPoint := { t := 10, lat := 0, lon := 0, twd := some 10 }

/-- Witness track for C1: twd goes 350 → 10 across the pair. -/
def c1WitBoat : BoatTrack :=
  { id := "W", name := "W", color := "c", points := [c1P1, c1P2] }

/-- C1 witness: the amended theorem applied to the 350 → 10 track at the
midpoint, where the shortest-arc result is 0 (not 180). -/
theorem interpolateAt_wind_circular_witness :
    List.Pairwise (fun a b : TrackPoint => a.t < b.t) c1WitBoat.points ∧
    c1WitBoat.points = [] ++ c1P1 :: c1P2 :: [] ∧
    (c1P1.t < 5 ∧ (5 : ℚ) < c1P2.t) ∧
    (c1P1.wind WindField.twd = some 350 ∧ c1P2.wind WindField.twd = some 10) ∧
    ((0 : ℚ) ≤ 350 ∧ (350 : ℚ) < 360 ∧ (0 : ℚ) ≤ 10 ∧ (10 : ℚ) < 360) ∧
    ((-180 ≤ wrapDiffSpec (10 - 350) ∧ wrapDiffSpec (10 - 350) ≤ 180) ∧
      resultWind WindField.twd (interpolatePosition c1WitBoat 5) =
        some (wrapTo360Spec (350 + wrapDiffSpec (10 - 350) * ((5 - c1P1.t) / (c1P2.t - c1P1.t)))) ∧
      0 ≤ wrapTo360Spec (350 + wrapDiffSpec (10 - 350) * ((5 - c1P1.t) / (c1P2.t - c1P1.t))) ∧
      wrapTo360Spec (350 + wrapDiffSpec (10 - 350) * ((5 - c1P1.t) / (c1P2.t - c1P1.t))) < 360) ∧
    resultWind WindField.twd (interpolatePosition c1WitBoat 5) = some 0 :=
  ⟨by decide, by decide, by decide, by decide, by decide,
    interpolateAt_wind_circular c1WitBoat 5 [] [] c1P1 c1P2 WindField.twd 350 10
      (by decide) (by decide) (by decide) (by decide) (by decide) (by decide)
      (by decide) (by decide) (by decide) (by decide),
    by
      have h : resultWind WindField.twd (interpolatePosition c1WitBoat 5) =
          some (interpolateAngle 350 10 ((5 - c1P1.t) / (c1P2.t - c1P1.t))) := rfl
      rw [h, interpolateAngle_eq_spec]
      norm_num [wrapTo360Spec, wrapDiffSpec, c1P1, c1P2]⟩

/-- The `sog` field of an interpolation result's carried point. -/
def resultSog (o : Option InterpResult) : Option ℚ :=
  match resultPoint o with
  | some q => q.sog
  | none => none

/-- The `cog` field of an interpolation result's carried point. -/
def resultCog (o : Option InterpResult) : Option ℚ :=
  match resultPoint o with
  | some q => q.cog
  | none => none

lemma mkInterpPoint_sog (p1 p2 : TrackPoint) (t : ℚ) :
    (mkInterpPoint p1 p2 t).sog =
      match p1.sog, p2.sog with
      | some a, some b => some (a + (b - a) * ((t - p1.t) / (p2.t - p1.t)))
      | _, _ => none := rfl

lemma mkInterpPoint_cog (p1 p2 : TrackPoint) (t : ℚ) :
    (mkInterpPoint p1 p2 t).cog =
      match p1.cog, p2.cog with
      | some a, some b => some (a + (b - a) * ((t - p1.t) / (p2.t - p1.t)))
      | _, _ => none := rfl

/-- C4: when interpolating strictly between two consecutive samples,
`sog`/`cog` are present exactly when both endpoints define them (and are
then linearly interpolated), while a wind-direction field defined at exactly
one endpoint is carried through unchanged from that endpoint. -/
theorem interpolateAt_optional_fields (boat : BoatTrack) (t : ℚ)
    (pre suf : List TrackPoint) (p1 p2 : TrackPoint)
    (hs : List.Pairwise (fun a b : TrackPoint => a.t < b.t) boat.points)
    (hpair : boat.points = pre ++ p1 :: p2 :: suf)
    (h1 : p1.t < t) (h2 : t < p2.t) :
    ((resultSog (interpolatePosition boat t)).isSome ↔
        p1.sog.isSome ∧ p2.sog.isSome) ∧
    (∀ a b, p1.sog = some a → p2.sog = some b →
      resultSog (interpolatePosition boat t) =
        some (a + (b - a) * ((t - p1.t) / (p2.t - p1.t)))) ∧
    ((resultCog (interpolatePosition boat t)).isSome ↔
        p1.cog.isSome ∧ p2.cog.isSome) ∧
    (∀ a b, p1.cog = some a → p2.cog = some b →
      resultCog (interpolatePosition boat t) =
        some (a + (b - a) * ((t - p1.t) / (p2.t - p1.t)))) ∧
    (∀ f a, p1.wind f = some a → p2.wind f = none →
      resultWind f (interpolatePosition boat t) = some a) ∧
    (∀ f a, p1.wind f = none → p2.wind f = some a →
      resultWind f (interpolatePosition boat t) = some a) := by
  rw [interpolatePosition_bracket boat t pre suf p1 p2 hs hpair h1 h2]
  refine ⟨?_, ?_, ?_, ?_, ?_, ?_⟩
  · show (mkInterpPoint p1 p2 t).sog.isSome ↔ _
    rw [mkInterpPoint_sog]
    cases p1.sog <;> cases p2.sog <;> simp
  · intro a b ha hb
    show (mkInterpPoint p1 p2 t).sog = _
    rw [mkInterpPoint_sog, ha, hb]
  · show (mkInterpPoint p1 p2 t).cog.isSome ↔ _
    rw [mkInterpPoint_cog]
    cases p1.cog <;> cases p2.cog <;> simp
  · intro a b ha hb
    show (mkInterpPoint p1 p2 t).cog = _
    rw [mkInterpPoint_cog, ha, hb]
  · intro f a ha hb
    show (mkInterpPoint p1 p2 t).wind f = _
    rw [mkInterpPoint_wind, ha, hb]
  · intro f a ha hb
    show (mkInterpPoint p1 p2 t).wind f = _
    rw [mkInterpPoint_wind, ha, hb]

/-- First sample of the C4 witness track: defines sog and twd and twa,
leaves cog and awa undefined. -/
def c4P1 : TrackPoint :=
  { t := 0, lat := 0, lon := 0, sog := some 10, twd := some 100, twa := some 50 }

/-- Second sample of the C4 witness track: defines sog, cog, awa and twa,
leaves twd undefined. -/
def c4P2 : TrackPoint :=
  { t := 10, lat := 0, lon := 0, sog := some 20, cog := some 5,
    awa := some 200, twa := some 60 }

/-- Witness track for C4. -/
def c4Boat : BoatTrack :=
  { id := "V", name := "V", color := "c", points := [c4P1, c4P2] }

/-- C4 witness: the theorem applied to a concrete track with mixed optional
fields; cog (one-sided) is absent while twd and awa (one-sided wind fields)
are carried through. -/
theorem interpolateAt_optional_fields_witness :
    List.Pairwise (fun a b : TrackPoint => a.t < b.t) c4Boat.points ∧
    c4Boat.points = [] ++ c4P1 :: c4P2 :: [] ∧
    (c4P1.t < 4 ∧ (4 : ℚ) < c4P2.t) ∧
    (((resultSog (interpolatePosition c4Boat 4)).isSome ↔
        c4P1.sog.isSome ∧ c4P2.sog.isSome) ∧
      (∀ a b, c4P1.sog = some a → c4P2.sog = some b →
        resultSog (interpolatePosition c4Boat 4) =
          some (a + (b - a) * ((4 - c4P1.t) / (c4P2.t - c4P1.t)))) ∧
      ((resultCog (interpolatePosition c4Boat 4)).isSome ↔
        c4P1.cog.isSome ∧ c4P2.cog.isSome) ∧
      (∀ a b, c4P1.cog = some a → c4P2.cog = some b →
        resultCog (interpolatePosition c4Boat 4) =
          some (a + (b - a) * ((4 - c4P1.t) / (c4P2.t - c4P1.t)))) ∧
      (∀ f a, c4P1.wind f = some a → c4P2.wind f = none →
        resultWind f (interpolatePosition c4Boat 4) = some a) ∧
      (∀ f a, c4P1.wind f = none → c4P2.wind f = some a →
        resultWind f (interpolatePosition c4Boat 4) = some a)) ∧
    resultCog (interpolatePosition c4Boat 4) = none ∧
    resultWind WindField.twd (interpolatePosition c4Boat 4) = some 100 ∧
    resultWind WindField.awa (interpolatePosition c4Boat 4) = some 200 :=
  ⟨by decide, by decide, by decide,
    interpolateAt_optional_fields c4Boat 4 [] [] c4P1 c4P2
      (by decide) (by decide) (by decide) (by decide),
    by decide, by decide, by decide⟩

/-- Sample pair with duplicate timestamps used to refute C2 as stated. -/
def dupPointA : TrackPoint := { t := 0, lat := 0, lon := 0 }

/-- Second sample at the same timestamp but a different latitude. -/
def dupPointB : TrackPoint := { t := 0, lat := 1, lon := 0 }

/-- A track containing two samples with the same timestamp. -/
def dupBoat : BoatTrack :=
  { id := "X", name := "X", color := "c", points := [dupPointA, dupPointB] }

/-- C2 (counterexample to the claim as stated): when two samples share a
timestamp, `interpolateAt` at that timestamp returns the first of them, so
the second sample's stored fields are not returned. -/
theorem interpolatePosition_exact_match_counterexample :
    dupPointB ∈ dupBoat.points ∧
      interpolatePosition dupBoat dupPointB.t ≠
        some ⟨dupPointB.lat, dupPointB.lon, some dupPointB⟩ := by
  decide

/-- C2 witness: a concrete one-sample track queried at its only sample's
timestamp. -/
theorem interpolatePosition_exact_match_witness :
    List.Pairwise (fun a b : TrackPoint => a.t < b.t)
      (BoatTrack.mk "A" "A" "c" [{ t := 7, lat := 1, lon := 2 }]).points ∧
    ({ t := 7, lat := 1, lon := 2 } : TrackPoint) ∈
      (BoatTrack.mk "A" "A" "c" [{ t := 7, lat := 1, lon := 2 }]).points ∧
    interpolatePosition (BoatTrack.mk "A" "A" "c" [{ t := 7, lat := 1, lon := 2 }])
        ({ t := 7, lat := 1, lon := 2 } : TrackPoint).t =
      some ⟨1, 2, some { t := 7, lat := 1, lon := 2 }⟩ :=
  ⟨by decide, by decide,
    interpolatePosition_exact_match _ _ (by decide) (by decide)⟩

/-- C3: `interpolateAt` returns "not available" (here `none`) exactly when
the track is empty, or `t` is strictly before the first sample's timestamp,
or strictly after the last sample's timestamp; inside the closed range on a
non-empty track it always produces a result. -/
theorem interpolatePosition_none_iff (boat : BoatTrack) (t : ℚ) :
    interpolatePosition boat t = none ↔
      (boat.points = [] ∨
        ∃ p ps, boat.points = p :: ps ∧
          (t < p.t ∨ (ps.getLastD p).t < t)) := by
  constructor
  · intro h
    match hp : boat.points with
    | [] => exact Or.inl rfl
    | p :: ps =>
      refine Or.inr ⟨p, ps, rfl, ?_⟩
      by_contra hc
      push_neg at hc
      obtain ⟨h1, h2⟩ := hc
      rw [interpolatePosition_cons t hp] at h
      rw [if_neg (not_lt.mpr h1), if_neg (not_lt.mpr h2)] at h
      cases hl : interpLoop t (p :: ps) with
      | none => rw [hl] at h; simp at h
      | some r => rw [hl] at h; simp at h
  · intro h
    rcases h with h | ⟨p, ps, hp, hcond⟩
    · exact interpolatePosition_nil t h
    · rw [interpolatePosition_cons t hp]
      rcases hcond with h1 | h2
      · rw [if_pos h1]
      · rcases lt_or_le t p.t with hlt | hge
        · rw [if_pos hlt]
        · rw [if_neg (not_lt.mpr hge), if_pos h2]

/-- `[...existing.points, ...boat.points].sort((a, b) => a.t - b.t)`:
JavaScript `Array.prototype.sort` with an ascending-by-`t` comparator,
modelled as insertion sort (sorted output, permutation of the input; no
claim observes the relative order of equal keys). -/
def sortPoints (l : List TrackPoint) : List TrackPoint :=
  List.insertionSort (fun a b => a.t ≤ b.t) l

instance : IsTotal TrackPoint (fun a b => a.t ≤ b.t) :=
  ⟨fun a b => le_total a.t b.t⟩

instance : IsTrans TrackPoint (fun a b => a.t ≤ b.t) :=
  ⟨fun _ _ _ h1 h2 => le_trans h1 h2⟩

/-- One step of `mergeTracks`' boat-map update: `boatMap.set(boat.id,
{...boat})` for a new id (insertion order preserved, like a JS `Map`), or
merge-and-sort of the points for an existing id. -/
def insertBoat (m : List BoatTrack) (b : BoatTrack) : List BoatTrack :=
  if m.any (fun e => e.id == b.id) then
    m.map (fun e =>
      if e.id == b.id then { e with points := sortPoints (e.points ++ b.points) }
      else e)
  else m ++ [b]

/-- The running state of `mergeTracks`' loop: the boat map plus the
`tMin`/`tMax` accumulators (`none` models the initial `Infinity` /
`-Infinity` sentinels, which `Math.min`/`Math.max` absorb). -/
structure MergeState where
  boats : List BoatTrack
  tMin : Option ℚ
  tMax : Option ℚ

/-- The body of `mergeTracks`' inner loop: update the boat map, and when
the incoming boat has points, fold its first/last timestamps into the
running time range. -/
def mergeStep (st : MergeState) (b : BoatTrack) : MergeState :=
  let m := insertBoat st.boats b
  match b.points with
  | [] => { boats := m, tMin := st.tMin, tMax := st.tMax }
  | p :: ps =>
    { boats := m
      tMin := some (match st.tMin with
                    | none => p.t
                    | some v => min v p.t)
      tMax := some (match st.tMax with
                    | none => (ps.getLastD p).t
                    | some v => max v (ps.getLastD p).t) }

/-- `mergeTracks` from `src/domain/tracks/index.ts`: fold all boats of all
datasets through `mergeStep`, then replace an untouched `Infinity` /
`-Infinity` time range by 0/0. -/
def mergeTracks (datasets : List RaceDataset) : RaceDataset :=
  let st := datasets.foldl (fun st ds => ds.boats.foldl mergeStep st)
    { boats := [], tMin := none, tMax := none }
  { boats := st.boats, tMin := st.tMin.getD 0, tMax := st.tMax.getD 0 }

/-- All boats of all datasets, in dataset order. -/
def boatsOf (datasets : List RaceDataset) : List BoatTrack :=
  datasets.flatMap (·.boats)

/-- The ids of a list of boats, in order. -/
def idsOf (m : List BoatTrack) : List String := m.map (·.id)

/-- Concatenation of the points of every boat in `bs` carrying the given
id, in list order. -/
def pointsFor (bs : List BoatTrack) (id : String) : List TrackPoint :=
  (bs.filter (fun b => b.id == id)).flatMap (·.points)

lemma mergeTracks_foldl (datasets : List RaceDataset) (st : MergeState) :
    datasets.foldl (fun st ds => ds.boats.foldl mergeStep st) st =
      (boatsOf datasets).foldl mergeStep st := by
  induction datasets generalizing st with
  | nil => rfl
  | cons d ds ih =>
    rw [List.foldl_cons, ih,
      show boatsOf (d :: ds) = d.boats ++ boatsOf ds by
        rw [boatsOf, boatsOf, List.flatMap_cons],
      List.foldl_append]

lemma mergeStep_boats (st : MergeState) (b : BoatTrack) :
    (mergeStep st b).boats = insertBoat st.boats b := by
  rw [mergeStep]
  cases b.points <;> rfl

lemma idsOf_insertBoat_existing (m : List BoatTrack) (b : BoatTrack)
    (h : m.any (fun e => e.id == b.id) = true) :
    idsOf (insertBoat m b) = idsOf m := by
  rw [insertBoat, if_pos h, idsOf, idsOf, List.map_map]
  apply List.map_congr_left
  intro e _
  show (if (e.id == b.id) = true then _ else e).id = e.id
  split <;> rfl

lemma pointsFor_append (bs1 bs2 : List BoatTrack) (id : String) :
    pointsFor (bs1 ++ bs2) id = pointsFor bs1 id ++ pointsFor bs2 id := by
  simp only [pointsFor, List.filter_append, List.flatMap_append]

lemma pointsFor_single_self (b : BoatTrack) : pointsFor [b] b.id = b.points := by
  simp [pointsFor]

lemma pointsFor_single_ne (b : BoatTrack) (id : String) (h : ¬(b.id = id)) :
    pointsFor [b] id = [] := by
  simp [pointsFor, h]

lemma pointsFor_eq_nil_of_not_mem (bs : List BoatTrack) (id : String)
    (h : id ∉ idsOf bs) : pointsFor bs id = [] := by
  have hf : bs.filter (fun b => b.id == id) = [] := by
    rw [List.filter_eq_nil_iff]
    intro b hb
    simp only [beq_iff_eq]
    intro hbid
    exact h (by rw [idsOf, List.mem_map]; exact ⟨b, hb, hbid⟩)
  rw [pointsFor, hf]
  rfl

lemma mergeStep_inv (seen : List BoatTrack) (st : MergeState) (b : BoatTrack)
    (hb : List.Pairwise (fun a b : TrackPoint => a.t ≤ b.t) b.points)
    (hnd : (idsOf st.boats).Nodup)
    (hmem : ∀ id, id ∈ idsOf st.boats ↔ id ∈ idsOf seen)
    (hent : ∀ e ∈ st.boats,
      List.Pairwise (fun a b : TrackPoint => a.t ≤ b.t) e.points ∧
      e.points.Perm (pointsFor seen e.id)) :
    (idsOf (mergeStep st b).boats).Nodup ∧
    (∀ id, id ∈ idsOf (mergeStep st b).boats ↔ id ∈ idsOf (seen ++ [b])) ∧
    (∀ e ∈ (mergeStep st b).boats,
      List.Pairwise (fun a b : TrackPoint => a.t ≤ b.t) e.points ∧
      e.points.Perm (pointsFor (seen ++ [b]) e.id)) := by
  rw [mergeStep_boats]
  have hids_seen : idsOf (seen ++ [b]) = idsOf seen ++ [b.id] := by
    rw [idsOf, idsOf, List.map_append]
    rfl
  by_cases h : st.boats.any (fun e => e.id == b.id) = true
  · -- existing id: points are merged and sorted
    have hbid_mem : b.id ∈ idsOf st.boats := by
      rw [List.any_eq_true] at h
      obtain ⟨e, he, heq⟩ := h
      rw [beq_iff_eq] at heq
      rw [idsOf, List.mem_map]
      exact ⟨e, he, heq⟩
    rw [idsOf_insertBoat_existing st.boats b h]
    refine ⟨hnd, ?_, ?_⟩
    · intro id
      rw [hids_seen, List.mem_append, List.mem_singleton]
      constructor
      · intro hid
        exact Or.inl ((hmem id).mp hid)
      · intro hid
        rcases hid with hid | hid
        · exact (hmem id).mpr hid
        · exact hid ▸ hbid_mem
    · intro e' he'
      rw [insertBoat, if_pos h] at he'
      rw [List.mem_map] at he'
      obtain ⟨e, he, hfe⟩ := he'
      by_cases heq : e.id == b.id
      · rw [if_pos heq] at hfe
        rw [beq_iff_eq] at heq
        subst hfe
        constructor
        · exact List.sorted_insertionSort _ _
        · have hperm1 : (sortPoints (e.points ++ b.points)).Perm (e.points ++ b.points) :=
            List.perm_insertionSort _ _
          have hperm2 : (e.points ++ b.points).Perm (pointsFor seen e.id ++ b.points) :=
            List.Perm.append_right b.points (hent e he).2
          have hpts : pointsFor (seen ++ [b]) e.id =
              pointsFor seen e.id ++ b.points := by
            rw [pointsFor_append, heq, pointsFor_single_self]
          show (sortPoints (e.points ++ b.points)).Perm _
          rw [hpts]
          exact hperm1.trans hperm2
      · rw [if_neg heq] at hfe
        subst hfe
        refine ⟨(hent e he).1, ?_⟩
        have hne : ¬(b.id = e.id) := by
          intro hc
          exact heq (by rw [beq_iff_eq, hc])
        rw [pointsFor_append, pointsFor_single_ne b e.id hne, List.append_nil]
        exact (hent e he).2
  · -- new id: appended at the end
    have hbid_not : b.id ∉ idsOf st.boats := by
      intro hc
      apply h
      rw [List.any_eq_true]
      rw [idsOf, List.mem_map] at hc
      obtain ⟨e, he, heq⟩ := hc
      exact ⟨e, he, by rw [beq_iff_eq]; exact heq⟩
    have hins : insertBoat st.boats b = st.boats ++ [b] := by
      rw [insertBoat, if_neg h]
    rw [hins]
    have hids : idsOf (st.boats ++ [b]) = idsOf st.boats ++ [b.id] := by
      rw [idsOf, idsOf, List.map_append]
      rfl
    refine ⟨?_, ?_, ?_⟩
    · rw [hids, List.nodup_append]
      refine ⟨hnd, List.nodup_singleton _, ?_⟩
      intro id hid1 hid2
      rw [List.mem_singleton] at hid2
      exact hbid_not (hid2 ▸ hid1)
    · intro id
      rw [hids, hids_seen, List.mem_append, List.mem_append]
      constructor
      · intro hid
        rcases hid with hid | hid
        · exact Or.inl ((hmem id).mp hid)
        · exact Or.inr hid
      · intro hid
        rcases hid with hid | hid
        · exact Or.inl ((hmem id).mpr hid)
        · exact Or.inr hid
    · intro e' he'
      rw [List.mem_append, List.mem_singleton] at he'
      rcases he' with he | he
      · refine ⟨(hent e' he).1, ?_⟩
        have hne : ¬(b.id = e'.id) := by
          intro hc
          exact hbid_not (hc ▸ (by rw [idsOf, List.mem_map]; exact ⟨e', he, rfl⟩))
        rw [pointsFor_append, pointsFor_single_ne b e'.id hne, List.append_nil]
        exact (hent e' he).2
      · subst he
        refine ⟨hb, ?_⟩
        have hseen_nil : pointsFor seen e'.id = [] :=
          pointsFor_eq_nil_of_not_mem seen e'.id
            (fun hc => hbid_not ((hmem e'.id).mpr hc))
        rw [pointsFor_append, hseen_nil, pointsFor_single_self, List.nil_append]

lemma mergeFold_inv :
    ∀ (bs : List BoatTrack) (seen : List BoatTrack) (st : MergeState),
      (∀ b ∈ bs, List.Pairwise (fun a b : TrackPoint => a.t ≤ b.t) b.points) →
      (idsOf st.boats).Nodup →
      (∀ id, id ∈ idsOf st.boats ↔ id ∈ idsOf seen) →
      (∀ e ∈ st.boats,
        List.Pairwise (fun a b : TrackPoint => a.t ≤ b.t) e.points ∧
        e.points.Perm (pointsFor seen e.id)) →
      (idsOf (bs.foldl mergeStep st).boats).Nodup ∧
      (∀ id, id ∈ idsOf (bs.foldl mergeStep st).boats ↔ id ∈ idsOf (seen ++ bs)) ∧
      (∀ e ∈ (bs.foldl mergeStep st).boats,
        List.Pairwise (fun a b : TrackPoint => a.t ≤ b.t) e.points ∧
        e.points.Perm (pointsFor (seen ++ bs) e.id)) := by
  intro bs
  induction bs with
  | nil =>
    intro seen st _ hnd hmem hent
    rw [List.foldl_nil, List.append_nil]
    exact ⟨hnd, hmem, hent⟩
  | cons b bs' ih =>
    intro seen st hin hnd hmem hent
    rw [List.foldl_cons]
    have hstep := mergeStep_inv seen st b (hin b (List.mem_cons_self b bs'))
      hnd hmem hent
    have hrec := ih (seen ++ [b]) (mergeStep st b)
      (fun x hx => hin x (List.mem_cons_of_mem b hx))
      hstep.1 hstep.2.1 hstep.2.2
    rw [List.append_assoc, List.singleton_append] at hrec
    exact hrec

/-- C7: merging datasets whose per-vehicle sample lists are sorted
ascending by timestamp yields exactly one track per vehicle id seen in any
input, whose samples are a timestamp-sorted permutation of the
concatenation of that id's samples across the inputs. -/
theorem mergeTracks_combines_tracks (datasets : List RaceDataset)
    (hin : ∀ d ∈ datasets, ∀ b ∈ d.boats,
      List.Pairwise (fun a b : TrackPoint => a.t ≤ b.t) b.points) :
    (idsOf (mergeTracks datasets).boats).Nodup ∧
    (∀ id, id ∈ idsOf (mergeTracks datasets).boats ↔
      id ∈ idsOf (boatsOf datasets)) ∧
    (∀ e ∈ (mergeTracks datasets).boats,
      List.Pairwise (fun a b : TrackPoint => a.t ≤ b.t) e.points ∧
      e.points.Perm (pointsFor (boatsOf datasets) e.id)) := by
  have hin' : ∀ b ∈ boatsOf datasets,
      List.Pairwise (fun a b : TrackPoint => a.t ≤ b.t) b.points := by
    intro b hb
    rw [boatsOf, List.mem_flatMap] at hb
    obtain ⟨d, hd, hbd⟩ := hb
    exact hin d hd b hbd
  have h := mergeFold_inv (boatsOf datasets) []
    { boats := [], tMin := none, tMax := none }
    hin' (by simp [idsOf]) (by simp [idsOf]) (by simp)
  rw [List.nil_append] at h
  have hboats : (mergeTracks datasets).boats =
      ((boatsOf datasets).foldl mergeStep
        { boats := [], tMin := none, tMax := none }).boats := by
    rw [mergeTracks, mergeTracks_foldl]
  rw [hboats]
  exact h

/-- Dataset A of the C7 witness: vehicle "X" with samples at t = 0, 60000. -/
def dsA : RaceDataset :=
  { boats := [{ id := "X", name := "X", color := "c1",
                points := [{ t := 0, lat := 0, lon := 0 },
                           { t := 60000, lat := 1, lon := 1 }] }],
    tMin := 0, tMax := 60000 }

/-- Dataset B of the C7 witness: vehicle "X" with samples at t = 30000,
90000. -/
def dsB : RaceDataset :=
  { boats := [{ id := "X", name := "XB", color := "c2",
                points := [{ t := 30000, lat := 2, lon := 2 },
                           { t := 90000, lat := 3, lon := 3 }] }],
    tMin := 30000, tMax := 90000 }

/-- C7 witness: merging the spec's example datasets yields a single vehicle
"X" with samples at 0, 30000, 60000, 90000. -/
theorem mergeTracks_combines_tracks_witness :
    (∀ d ∈ [dsA, dsB], ∀ b ∈ d.boats,
      List.Pairwise (fun a b : TrackPoint => a.t ≤ b.t) b.points) ∧
    ((idsOf (mergeTracks [dsA, dsB]).boats).Nodup ∧
      (∀ id, id ∈ idsOf (mergeTracks [dsA, dsB]).boats ↔
        id ∈ idsOf (boatsOf [dsA, dsB])) ∧
      (∀ e ∈ (mergeTracks [dsA, dsB]).boats,
        List.Pairwise (fun a b : TrackPoint => a.t ≤ b.t) e.points ∧
        e.points.Perm (pointsFor (boatsOf [dsA, dsB]) e.id))) ∧
    (mergeTracks [dsA, dsB]).boats.map (fun b => b.points.map (·.t)) =
      [[0, 30000, 60000, 90000]] ∧
    idsOf (mergeTracks [dsA, dsB]).boats = ["X"] :=
  ⟨by decide, mergeTracks_combines_tracks [dsA, dsB] (by decide),
    by decide, by decide⟩

/-- First-sample timestamps, in order, of the boats that have samples. -/
def firstTimes (bs : List BoatTrack) : List ℚ :=
  bs.filterMap (fun b => b.points.head?.map (·.t))

/-- Last-sample timestamps, in order, of the boats that have samples. -/
def lastTimes (bs : List BoatTrack) : List ℚ :=
  bs.filterMap (fun b =>
    match b.points with
    | [] => none
    | p :: ps => some ((ps.getLastD p).t))

lemma mergeStep_tMin (st : MergeState) (b : BoatTrack) :
    (mergeStep st b).tMin =
      match b.points with
      | [] => st.tMin
      | p :: _ => some (match st.tMin with
                        | none => p.t
                        | some v => min v p.t) := by
  rw [mergeStep]
  cases b.points <;> rfl

lemma mergeStep_tMax (st : MergeState) (b : BoatTrack) :
    (mergeStep st b).tMax =
      match b.points with
      | [] => st.tMax
      | p :: ps => some (match st.tMax with
                         | none => (ps.getLastD p).t
                         | some v => max v (ps.getLastD p).t) := by
  rw [mergeStep]
  cases b.points <;> rfl

lemma firstTimes_cons (b : BoatTrack) (bs : List BoatTrack) :
    firstTimes (b :: bs) =
      match b.points with
      | [] => firstTimes bs
      | p :: _ => p.t :: firstTimes bs := by
  rw [firstTimes, List.filterMap_cons]
  cases hb : b.points <;> simp [hb, firstTimes]

lemma lastTimes_cons (b : BoatTrack) (bs : List BoatTrack) :
    lastTimes (b :: bs) =
      match b.points with
      | [] => lastTimes bs
      | p :: ps => (ps.getLastD p).t :: lastTimes bs := by
  rw [lastTimes, List.filterMap_cons]
  cases hb : b.points <;> simp [hb, lastTimes]

lemma mergeFold_tMin :
    ∀ (bs : List BoatTrack) (st : MergeState),
      (bs.foldl mergeStep st).tMin =
        match st.tMin, firstTimes bs with
        | none, [] => none
        | none, x :: xs => some (xs.foldl min x)
        | some v, l => some (l.foldl min v) := by
  intro bs
  induction bs with
  | nil =>
    intro st
    rw [List.foldl_nil]
    cases st.tMin <;> rfl
  | cons b bs' ih =>
    intro st
    rw [List.foldl_cons, ih, firstTimes_cons]
    cases hb : b.points with
    | nil =>
      rw [mergeStep_tMin, hb]
    | cons p ps =>
      rw [mergeStep_tMin, hb]
      cases htm : st.tMin <;> cases hft : firstTimes bs' <;>
        simp [List.foldl_cons]

lemma mergeFold_tMax :
    ∀ (bs : List BoatTrack) (st : MergeState),
      (bs.foldl mergeStep st).tMax =
        match st.tMax, lastTimes bs with
        | none, [] => none
        | none, x :: xs => some (xs.foldl max x)
        | some v, l => some (l.foldl max v) := by
  intro bs
  induction bs with
  | nil =>
    intro st
    rw [List.foldl_nil]
    cases st.tMax <;> rfl
  | cons b bs' ih =>
    intro st
    rw [List.foldl_cons, ih, lastTimes_cons]
    cases hb : b.points with
    | nil =>
      rw [mergeStep_tMax, hb]
    | cons p ps =>
      rw [mergeStep_tMax, hb]
      cases htm : st.tMax <;> cases hft : lastTimes bs' <;>
        simp [List.foldl_cons]

/-- C8: `mergeTracks` recomputes `tMin` as the minimum of the first-sample
timestamps, and `tMax` as the maximum of the last-sample timestamps, over
all input boats that have samples (each taken from that boat's own input
dataset), with both defaulting to 0 when no boat has samples; the
`Infinity` sentinels never appear in the result. -/
theorem mergeTracks_time_extent (datasets : List RaceDataset) :
    (mergeTracks datasets).tMin = (firstTimes (boatsOf datasets)).min?.getD 0 ∧
    (mergeTracks datasets).tMax = (lastTimes (boatsOf datasets)).max?.getD 0 := by
  constructor
  · show ((datasets.foldl (fun (st : MergeState) (ds : RaceDataset) =>
        ds.boats.foldl mergeStep st)
        ({ boats := [], tMin := none, tMax := none } : MergeState)).tMin).getD 0 = _
    rw [mergeTracks_foldl, mergeFold_tMin]
    cases hft : firstTimes (boatsOf datasets) <;> rfl
  · show ((datasets.foldl (fun (st : MergeState) (ds : RaceDataset) =>
        ds.boats.foldl mergeStep st)
        ({ boats := [], tMin := none, tMax := none } : MergeState)).tMax).getD 0 = _
    rw [mergeTracks_foldl, mergeFold_tMax]
    cases hft : lastTimes (boatsOf datasets) <;> rfl

/-- A JavaScript `number` as observed by the CSV layer, where NaN and the
infinities are distinguishable (`parseFloat` can produce any of them). -/
inductive JSNum where
  | num (q : ℚ)
  | inf
  | ninf
  | nan
deriving DecidableEq

/-- JS `isNaN(x)` for an already-numeric `x`. -/
def JSNum.isNaN : JSNum → Bool
  | .nan => true
  | _ => false

/-- JS `Number.isFinite(x)`: true exactly for ordinary numbers. -/
def JSNum.isFinite : JSNum → Bool
  | .num _ => true
  | _ => false

/-- JS unary minus on a number. -/
def JSNum.neg : JSNum → JSNum
  | .num q => .num (-q)
  | .inf => .ninf
  | .ninf => .inf
  | .nan => .nan

/-- JS `x > 0` (false on NaN, true on +Infinity). -/
def JSNum.gtZero : JSNum → Bool
  | .num q => decide (0 < q)
  | .inf => true
  | .ninf => false
  | .nan => false

/-- JS `x < q` for a finite literal `q` (false on NaN). -/
def JSNum.ltQ : JSNum → ℚ → Bool
  | .num a, q => decide (a < q)
  | .inf, _ => false
  | .ninf, _ => true
  | .nan, _ => false

/-- JS `x >= q` for a finite literal `q` (false on NaN). -/
def JSNum.geQ : JSNum → ℚ → Bool
  | .num a, q => decide (a ≥ q)
  | .inf, _ => true
  | .ninf, _ => false
  | .nan, _ => false

/-- JS `x + q` for a finite literal `q`. -/
def JSNum.addQ : JSNum → ℚ → JSNum
  | .num a, q => .num (a + q)
  | x, _ => x

/-- JS `x - q` for a finite literal `q`. -/
def JSNum.subQ : JSNum → ℚ → JSNum
  | .num a, q => .num (a - q)
  | x, _ => x

/-- Value of a decimal digit list, most significant first. -/
def digitsToNat (ds : List Char) : ℕ :=
  ds.foldl (fun a c => a * 10 + (c.toNat - 48)) 0

/-- The sign-stripped part of `Number.parseFloat`: an "Infinity" prefix, or
a longest prefix of decimal digits with an optional decimal point.  (The
host also accepts exponent suffixes; no string evaluated in this
development uses one, so they are outside the modelled subset and would
simply stop the digit scan here.) -/
def parseFloatCore (cs : List Char) : JSNum :=
  if cs.take 8 = "Infinity".data then .inf
  else
    let intPart := cs.takeWhile (·.isDigit)
    let rest := cs.dropWhile (·.isDigit)
    match rest with
    | '.' :: rest2 =>
      let fracPart := rest2.takeWhile (·.isDigit)
      if intPart.isEmpty ∧ fracPart.isEmpty then .nan
      else .num ((digitsToNat intPart : ℚ) +
        (digitsToNat fracPart : ℚ) / ((10 : ℚ) ^ fracPart.length))
    | _ => if intPart.isEmpty then .nan else .num (digitsToNat intPart)

/-- JS `Number.parseFloat` on the decimal grammar described at
`parseFloatCore`: leading whitespace skipped, then an optional sign. -/
def jsParseFloat (s : String) : JSNum :=
  match s.data.dropWhile (·.isWhitespace) with
  | '-' :: rest => (parseFloatCore rest).neg
  | '+' :: rest => parseFloatCore rest
  | cs => parseFloatCore cs

/-- Numeric value of one digit character. -/
def digitVal (c : Char) : ℕ := c.toNat - 48

/-- Gregorian leap-year test. -/
def isLeapYear (y : ℕ) : Bool :=
  decide ((y % 4 = 0 ∧ ¬ y % 100 = 0) ∨ y % 400 = 0)

/-- Days in a month of the given year. -/
def daysInMonth (y m : ℕ) : ℕ :=
  if m = 2 then (if isLeapYear y then 29 else 28)
  else if m = 4 ∨ m = 6 ∨ m = 9 ∨ m = 11 then 30
  else 31

/-- Days from 1970-01-01 to the given date (year ≥ 1970). -/
def daysFromEpoch (y m d : ℕ) : ℕ :=
  (List.range (y - 1970)).foldl
      (fun acc i => acc + (if isLeapYear (1970 + i) then 366 else 365)) 0 +
    (List.range (m - 1)).foldl (fun acc i => acc + daysInMonth y (i + 1)) 0 +
    (d - 1)

/-- Models the subset of JS `new Date(string)` parsing this development
evaluates: strict ISO-8601 UTC date-times `YYYY-MM-DDTHH:MM:SSZ` with year
≥ 1970, yielding epoch milliseconds.  The host accepts more formats; every
theorem below evaluates `jsDateParse` only on strings where the subset and
the host agree (such strict ISO strings, and clearly non-date inputs —
signed or many-digit number strings, "Infinity" — on which both fail). -/
def jsDateParse (s : String) : Option ℚ :=
  match s.data with
  | [y1, y2, y3, y4, c1, m1, m2, c2, d1, d2, c3, h1, h2, c4, mi1, mi2, c5, s1, s2, c6] =>
    if ([y1, y2, y3, y4, m1, m2, d1, d2, h1, h2, mi1, mi2, s1, s2].all (·.isDigit)) ∧
        c1 = '-' ∧ c2 = '-' ∧ c3 = 'T' ∧ c4 = ':' ∧ c5 = ':' ∧ c6 = 'Z' then
      let y := digitVal y1 * 1000 + digitVal y2 * 100 + digitVal y3 * 10 + digitVal y4
      let mo := digitVal m1 * 10 + digitVal m2
      let dy := digitVal d1 * 10 + digitVal d2
      let hh := digitVal h1 * 10 + digitVal h2
      let mi := digitVal mi1 * 10 + digitVal mi2
      let ss := digitVal s1 * 10 + digitVal s2
      if 1970 ≤ y ∧ 1 ≤ mo ∧ mo ≤ 12 ∧ 1 ≤ dy ∧ dy ≤ daysInMonth y mo ∧
          hh ≤ 23 ∧ mi ≤ 59 ∧ ss ≤ 59 then
        some (((daysFromEpoch y mo dy * 86400 + hh * 3600 + mi * 60 + ss) * 1000 : ℕ) : ℚ)
      else none
    else none
  | _ => none

/-- `normalizeTimestamp` from `src/domain/parsing/csv.ts` (string input, as
delivered by the tabular parser): try the calendar parse first, then fall
back to `parseFloat` guarded by `!isNaN(epoch) && epoch > 0`. -/
def normalizeTimestamp (value : String) : Option JSNum :=
  match jsDateParse value with
  | some ms => some (.num ms)
  | none =>
    let epoch := jsParseFloat value
    if !epoch.isNaN && epoch.gtZero then some epoch else none

/-- C6 (counterexample to the claim as stated): "-5" parses to the finite
number -5 yet is rejected by the fallback (the code requires `epoch > 0`,
not finiteness), while "Infinity" is accepted although it is not finite. -/
theorem normalizeTimestamp_fallback_counterexample :
    normalizeTimestamp "-5" = none ∧
    jsParseFloat "-5" = JSNum.num (-5) ∧
    (JSNum.num (-5)).isFinite = true ∧
    normalizeTimestamp "Infinity" = some JSNum.inf ∧
    JSNum.inf.isFinite = false := by
  refine ⟨by decide, by decide, rfl, by decide, rfl⟩

/-- C6 (amended): a row's timestamp is parsed by first attempting the
calendar/ISO parse; if that fails, the raw numeric fallback accepts exactly
the values that parse to a non-NaN number strictly greater than zero —
finiteness is not checked, so +Infinity passes and finite values ≤ 0 are
rejected; the row is dropped exactly when both attempts fail. -/
theorem normalizeTimestamp_drop_iff (s : String) :
    (normalizeTimestamp s = none ↔
      jsDateParse s = none ∧
        ((jsParseFloat s).isNaN = true ∨ (jsParseFloat s).gtZero = false)) ∧
    (∀ ms, jsDateParse s = some ms →
      normalizeTimestamp s = some (JSNum.num ms)) ∧
    (jsDateParse s = none →
      ∀ v, normalizeTimestamp s = some v ↔
        jsParseFloat s = v ∧ v.isNaN = false ∧ v.gtZero = true) := by
  refine ⟨?_, ?_, ?_⟩
  · rw [normalizeTimestamp]
    cases hd : jsDateParse s with
    | some ms => simp
    | none =>
      cases hn : (jsParseFloat s).isNaN <;>
        cases hg : (jsParseFloat s).gtZero <;>
          simp [hn, hg]
  · intro ms hms
    rw [normalizeTimestamp, hms]
  · intro hd v
    rw [normalizeTimestamp, hd]
    constructor
    · intro h
      by_cases hb : (!(jsParseFloat s).isNaN && (jsParseFloat s).gtZero) = true
      · rw [if_pos hb] at h
        have hv : jsParseFloat s = v := Option.some.inj h
        simp only [Bool.and_eq_true, Bool.not_eq_true'] at hb
        exact ⟨hv, hv ▸ hb.1, hv ▸ hb.2⟩
      · rw [if_neg hb] at h
        exact absurd h (by simp)
    · rintro ⟨hv, hnn, hgg⟩
      have hb : (!(jsParseFloat s).isNaN && (jsParseFloat s).gtZero) = true := by
        rw [hv, hnn, hgg]
        rfl
      rw [if_pos hb, hv]

/-- C6 witness: a strict ISO string taken by the calendar branch, with the
resulting epoch value 86400000 (one day) carried through. -/
theorem normalizeTimestamp_drop_iff_witness :
    jsDateParse "1970-01-02T00:00:00Z" = some 86400000 ∧
    normalizeTimestamp "1970-01-02T00:00:00Z" = some (JSNum.num 86400000) :=
  ⟨by decide,
    (normalizeTimestamp_drop_iff "1970-01-02T00:00:00Z").2.1 86400000 (by decide)⟩

/-- A sample as produced by the CSV layer (`TrackPoint` built by
`parseRow`): the timestamp can still be any accepted `parseFloat` result,
the validated position is finite, the optional fields hold raw `parseFloat`
results, and unknown columns ride along in `extras`. -/
structure ParsedPoint where
  t : JSNum
  lat : ℚ
  lon : ℚ
  sog : Option JSNum := none
  cog : Option JSNum := none
  twd : Option JSNum := none
  awa : Option JSNum := none
  twa : Option JSNum := none
  extras : List (String × String) := []
deriving DecidableEq

/-- JS `String.prototype.toLowerCase` on the characters involved here. -/
def lowerStr (s : String) : String := ⟨s.data.map Char.toLower⟩

/-- JS `a || b` over possibly-undefined strings: an empty string is falsy
and falls through to `b`. -/
def jsOrStr : Option String → Option String → Option String
  | some s, b => if s = "" then b else some s
  | none, b => b

/-- `getValue` from `parseRow`: `row[key.toLowerCase()] || row[key]` (note
that the keys passed in the source are already lowercase, so this finds
only lowercase-keyed columns). -/
def getValue (row : List (String × String)) (key : String) : Option String :=
  jsOrStr (row.lookup (lowerStr key)) (row.lookup key)

/-- JS truthiness of a possibly-undefined string. -/
def truthy : Option String → Bool
  | none => false
  | some s => s ≠ ""

/-- The wind-angle normalization block that `parseRow` inlines three times
(for twd, awa, twa): add 360 if negative, then subtract 360 if the updated
value is ≥ 360. -/
def windNorm (x : JSNum) : JSNum :=
  let n1 := if x.ltQ 0 then x.addQ 360 else x
  if n1.geQ 360 then n1.subQ 360 else n1

/-- The schema column names excluded from the extras bag. -/
def schemaCols : List String :=
  ["timestamp", "lat", "lon", "boat_id", "boat_name", "sog", "cog", "twd", "awa", "twa"]

/-- `parseRow` from `src/domain/parsing/csv.ts`: required-field truthiness
check, timestamp normalization, lat/lon validation (NaN and the infinities
all fail the range check), lenient optional fields with the wind-angle
wrap, then the unknown-column pass-through. -/
def parseRow (row : List (String × String)) : Option ParsedPoint :=
  let timestamp := getValue row "timestamp"
  let latStr := getValue row "lat"
  let lonStr := getValue row "lon"
  let boatId := getValue row "boat_id"
  if !truthy timestamp || !truthy latStr || !truthy lonStr || !truthy boatId then
    none
  else
    match normalizeTimestamp (timestamp.getD "") with
    | none => none
    | some t =>
      match jsParseFloat (latStr.getD ""), jsParseFloat (lonStr.getD "") with
      | .num lat, .num lon =>
        if lat < -90 ∨ lat > 90 ∨ lon < -180 ∨ lon > 180 then none
        else
          let point0 : ParsedPoint := { t := t, lat := lat, lon := lon }
          let sogV := getValue row "sog"
          let point1 :=
            if truthy sogV then
              let n := jsParseFloat (sogV.getD "")
              if !n.isNaN then { point0 with sog := some n } else point0
            else point0
          let cogV := getValue row "cog"
          let point2 :=
            if truthy cogV then
              let n := jsParseFloat (cogV.getD "")
              if !n.isNaN then { point1 with cog := some n } else point1
            else point1
          let twdV := getValue row "twd"
          let point3 :=
            if truthy twdV then
              let n := jsParseFloat (twdV.getD "")
              if !n.isNaN then { point2 with twd := some (windNorm n) } else point2
            else point2
          let awaV := getValue row "awa"
          let point4 :=
            if truthy awaV then
              let n := jsParseFloat (awaV.getD "")
              if !n.isNaN then { point3 with awa := some (windNorm n) } else point3
            else point3
          let twaV := getValue row "twa"
          let point5 :=
            if truthy twaV then
              let n := jsParseFloat (twaV.getD "")
              if !n.isNaN then { point4 with twa := some (windNorm n) } else point4
            else point4
          let point6 := row.foldl
            (fun pt kv =>
              if schemaCols.contains (lowerStr kv.1) then pt
              else { pt with extras := pt.extras ++ [kv] })
            point5
          some point6
      | _, _ => none

/-- A CSV row whose header spelled every required column in upper case. -/
def upperRow : List (String × String) :=
  [("TIMESTAMP", "123456789"), ("LAT", "10"), ("LON", "20"), ("BOAT_ID", "alpha")]

/-- The same row with lowercase column names. -/
def lowerRow : List (String × String) :=
  [("timestamp", "123456789"), ("lat", "10"), ("lon", "20"), ("boat_id", "alpha")]

/-- C5: `parseRow`'s own comment says column lookup is case-insensitive,
but `row[lowerKey] || row[key]` with an already-lowercase `key` only ever
finds lowercase-keyed columns — a row carrying valid values under
upper-case required headers is dropped, while the identical lowercase row
is ingested. -/
theorem parseRow_uppercase_dropped :
    parseRow upperRow = none ∧ (parseRow lowerRow).isSome = true := by
  refine ⟨by decide, by decide⟩

/-- The `twd` field of a parse result, if any. -/
def ptTwd : Option ParsedPoint → Option JSNum
  | some p => p.twd
  | none => none

lemma windNorm_num (q : ℚ) :
    windNorm (.num q) =
      .num (if q < 0 then q + 360 else if q ≥ 360 then q - 360 else q) := by
  rw [windNorm]
  simp only [JSNum.ltQ, JSNum.addQ]
  by_cases h0 : q < 0
  · have hc : ¬((JSNum.num (q + 360)).geQ 360 = true) := by
      simp only [JSNum.geQ, decide_eq_true_eq]
      intro hcc
      linarith
    rw [if_pos (decide_eq_true h0), if_neg hc, if_pos h0]
  · have h0' : ¬(decide (q < 0) = true) := by simp [h0]
    rw [if_neg h0']
    by_cases h3 : q ≥ 360
    · have hc : (JSNum.num q).geQ 360 = true := by
        simp only [JSNum.geQ, decide_eq_true_eq]
        exact h3
      rw [if_pos hc, if_neg h0, if_pos h3]
      rfl
    · have hc : ¬((JSNum.num q).geQ 360 = true) := by
        simp only [JSNum.geQ, decide_eq_true_eq]
        exact h3
      rw [if_neg hc, if_neg h0, if_neg h3]

/-- Row with twd = -400 (still negative after one wrap). -/
def rowTwdM400 : List (String × String) :=
  [("timestamp", "123456789"), ("lat", "1"), ("lon", "2"),
   ("boat_id", "a"), ("twd", "-400")]

/-- Row with twd = 720 (still ≥ 360 after one wrap). -/
def rowTwd720 : List (String × String) :=
  [("timestamp", "123456789"), ("lat", "1"), ("lon", "2"),
   ("boat_id", "a"), ("twd", "720")]

/-- Row with twd = -10 (a single wrap lands in range). -/
def rowTwdM10 : List (String × String) :=
  [("timestamp", "123456789"), ("lat", "1"), ("lon", "2"),
   ("boat_id", "a"), ("twd", "-10")]

/-- C9: each wind-angle value that parses receives exactly one conditional
wrap — 360 added once if negative, else 360 subtracted once if ≥ 360,
never iterated — so ingested twd = -400 is stored as -40 and twd = 720 as
360 (both outside [0, 360)), while twd = -10 is stored as 350. -/
theorem parseRow_wind_single_wrap :
    (∀ q : ℚ, windNorm (.num q) =
      .num (if q < 0 then q + 360 else if q ≥ 360 then q - 360 else q)) ∧
    ptTwd (parseRow rowTwdM400) = some (.num (-40)) ∧
    ¬(0 ≤ (-40 : ℚ) ∧ (-40 : ℚ) < 360) ∧
    ptTwd (parseRow rowTwd720) = some (.num 360) ∧
    ¬(0 ≤ (360 : ℚ) ∧ (360 : ℚ) < 360) ∧
    ptTwd (parseRow rowTwdM10) = some (.num 350) := by
  refine ⟨windNorm_num, ?_, by norm_num, ?_, by norm_num, ?_⟩
  · have h : ptTwd (parseRow rowTwdM400) = some (windNorm (JSNum.num (-400))) := rfl
    rw [h, windNorm_num]
    norm_num
  · have h : ptTwd (parseRow rowTwd720) = some (windNorm (JSNum.num 720)) := rfl
    rw [h, windNorm_num]
    norm_num
  · have h : ptTwd (parseRow rowTwdM10) = some (windNorm (JSNum.num (-10))) := rfl
    rw [h, windNorm_num]
    norm_num

/-- One parsed polar-table point (`PolarDataPoint`). -/
structure PolarDataPoint where
  twa : JSNum
  tws : JSNum
  sog : JSNum
deriving DecidableEq

/-- Whitespace splitter (accumulator = current token, reversed): models
`line.split(/\t|\s+/).filter(part => part.trim() !== '')`, i.e. the
whitespace-separated tokens with empties dropped. -/
def splitWsAux : List Char → List Char → List String
  | [], cur => if cur = [] then [] else [⟨cur.reverse⟩]
  | c :: rest, cur =>
    if c.isWhitespace then
      if cur = [] then splitWsAux rest []
      else ⟨cur.reverse⟩ :: splitWsAux rest []
    else splitWsAux rest (c :: cur)

/-- Tokens of a line. -/
def tokenize (s : String) : List String := splitWsAux s.data []

/-- `content.split('\n')`: split at newlines, keeping empty pieces. -/
def splitNlAux : List Char → List Char → List String
  | [], cur => [⟨cur.reverse⟩]
  | c :: rest, cur =>
    if c = '\n' then ⟨cur.reverse⟩ :: splitNlAux rest []
    else splitNlAux rest (c :: cur)

/-- The lines of a string, as JS `split('\n')` produces them. -/
def linesOf (s : String) : List String := splitNlAux s.data []

/-- JS `String.prototype.trim`. -/
def trimStr (s : String) : String :=
  ⟨((s.data.dropWhile (·.isWhitespace)).reverse.dropWhile (·.isWhitespace)).reverse⟩

/-- The body of `parsePolarFile`'s data-line loop (`for i = 1; ...`),
extracted as a function of the accumulated data and one line: skip blank
lines, lines with fewer than two tokens, and lines whose first token does
not parse; otherwise append one point per numeric token from the third
position on, paired positionally with the wind-speed columns. -/
def polarLineStep (tws : List JSNum) (data : List PolarDataPoint) (l : String) :
    List PolarDataPoint :=
  let line := trimStr l
  if line = "" then data
  else
    let parts := tokenize line
    if parts.length < 2 then data
    else
      let twa := jsParseFloat (trimStr (parts.headD ""))
      if twa.isNaN then data
      else
        data ++ ((parts.drop 2).zip tws).filterMap (fun pr =>
          let sog := jsParseFloat (trimStr pr.1)
          if sog.isNaN then none
          else some { twa := twa, tws := pr.2, sog := sog })

/-- `parsePolarFile` from the polar module: header wind speeds are the
numeric tokens from the third header position on; data lines are folded
through `polarLineStep`. -/
def parsePolarFile (content : String) : Except String (List PolarDataPoint) :=
  let lines := linesOf (trimStr content)
  if lines.length < 2 then .error "Polar file must have at least 2 lines"
  else
    let headerParts := tokenize (lines.headD "")
    let twsValues := (headerParts.drop 2).filterMap (fun part =>
      let tws := jsParseFloat (trimStr part)
      if tws.isNaN then none else some tws)
    if twsValues.length = 0 then .error "No TWS values found in header"
    else
      .ok ((lines.drop 1).foldl (polarLineStep twsValues) [])

/-- Written from the claim's wording: the points one data line contributes,
given the wind-speed columns — if the first token parses as an angle, one
point per numeric token from the third position on, paired with the
wind-speed column at the same position (the second token is skipped). -/
def lineSpecPoints (tws : List JSNum) (l : String) : List PolarDataPoint :=
  match tokenize (trimStr l) with
  | a :: _ :: vs =>
    let twa := jsParseFloat (trimStr a)
    if twa.isNaN then []
    else
      (vs.zip tws).filterMap (fun pr =>
        let sog := jsParseFloat (trimStr pr.1)
        if sog.isNaN then none
        else some { twa := twa, tws := pr.2, sog := sog })
  | _ => []

lemma lineSpecPoints_empty (tws : List JSNum) (l : String)
    (h : trimStr l = "") : lineSpecPoints tws l = [] := by
  have htk : tokenize (trimStr l) = [] := by
    rw [h]
    rfl
  rw [lineSpecPoints, htk]

lemma lineSpecPoints_nil (tws : List JSNum) (l : String)
    (htk : tokenize (trimStr l) = []) : lineSpecPoints tws l = [] := by
  rw [lineSpecPoints, htk]

lemma lineSpecPoints_one (tws : List JSNum) (l a : String)
    (htk : tokenize (trimStr l) = [a]) : lineSpecPoints tws l = [] := by
  rw [lineSpecPoints, htk]

lemma lineSpecPoints_cons2 (tws : List JSNum) (l a b : String) (vs : List String)
    (htk : tokenize (trimStr l) = a :: b :: vs) :
    lineSpecPoints tws l =
      if (jsParseFloat (trimStr a)).isNaN = true then []
      else
        (vs.zip tws).filterMap (fun pr =>
          let sog := jsParseFloat (trimStr pr.1)
          if sog.isNaN then none
          else some { twa := jsParseFloat (trimStr a), tws := pr.2, sog := sog }) := by
  rw [lineSpecPoints, htk]

lemma polarLineStep_eq (tws : List JSNum) (data : List PolarDataPoint) (l : String) :
    polarLineStep tws data l = data ++ lineSpecPoints tws l := by
  rw [polarLineStep]
  by_cases hempty : trimStr l = ""
  · rw [if_pos hempty, lineSpecPoints_empty tws l hempty, List.append_nil]
  · rw [if_neg hempty]
    cases htk : tokenize (trimStr l) with
    | nil =>
      rw [if_pos (by decide), lineSpecPoints_nil tws l htk, List.append_nil]
    | cons a rest =>
      cases rest with
      | nil =>
        rw [if_pos (by simp), lineSpecPoints_one tws l a htk, List.append_nil]
      | cons b vs =>
        rw [if_neg (by simp)]
        rw [show (a :: b :: vs).headD "" = a from rfl,
          show (a :: b :: vs).drop 2 = vs from rfl,
          lineSpecPoints_cons2 tws l a b vs htk]
        by_cases hnan : (jsParseFloat (trimStr a)).isNaN = true
        · rw [if_pos hnan, if_pos hnan, List.append_nil]
        · rw [if_neg hnan, if_neg hnan]

lemma polarFold_eq_flatMap (tws : List JSNum) :
    ∀ (ls : List String) (acc : List PolarDataPoint),
      ls.foldl (polarLineStep tws) acc = acc ++ ls.flatMap (lineSpecPoints tws) := by
  intro ls
  induction ls with
  | nil =>
    intro acc
    rw [List.foldl_nil, List.flatMap_nil, List.append_nil]
  | cons l ls' ih =>
    intro acc
    rw [List.foldl_cons, List.flatMap_cons, polarLineStep_eq, ih,
      List.append_assoc]

lemma filterMap_tws_eq_map (hs : List String)
    (hnums : ∀ tok ∈ hs, (jsParseFloat (trimStr tok)).isNaN = false) :
    hs.filterMap (fun part =>
      let tws := jsParseFloat (trimStr part)
      if tws.isNaN then none else some tws) =
      hs.map (fun tok => jsParseFloat (trimStr tok)) := by
  induction hs with
  | nil => rfl
  | cons tok hs' ih =>
    have h := hnums tok (List.mem_cons_self tok hs')
    rw [List.filterMap_cons, List.map_cons]
    rw [show ((let tws := jsParseFloat (trimStr tok);
          if tws.isNaN = true then none else some tws) : Option JSNum) =
        some (jsParseFloat (trimStr tok)) from
      if_neg (by rw [h]; exact Bool.false_ne_true)]
    rw [ih (fun x hx => hnums x (List.mem_cons_of_mem tok hx))]

/-- C10: when the header tokenizes to two placeholder tokens followed by
numeric wind-speed tokens, `parsePerformanceTable` parses each subsequent
line whose first token is an angle into one point per numeric token from
the third position on, paired with the wind-speed column at the same
position (the second token of every line is skipped). -/
theorem parsePolarFile_points (content headerLine t0 t1 : String)
    (dataLines hs : List String)
    (hlines : linesOf (trimStr content) = headerLine :: dataLines)
    (hdata : dataLines ≠ [])
    (hheader : tokenize headerLine = t0 :: t1 :: hs)
    (hnums : ∀ tok ∈ hs, (jsParseFloat (trimStr tok)).isNaN = false)
    (hne : hs ≠ []) :
    parsePolarFile content =
      .ok (dataLines.flatMap
        (lineSpecPoints (hs.map (fun tok => jsParseFloat (trimStr tok))))) := by
  have hlen2 : ¬((headerLine :: dataLines).length < 2) := by
    rw [List.length_cons]
    cases dataLines with
    | nil => exact absurd rfl hdata
    | cons x xs => simp
  have hlenmap : ¬((hs.map (fun tok => jsParseFloat (trimStr tok))).length = 0) := by
    rw [List.length_map]
    cases hs with
    | nil => exact absurd rfl hne
    | cons x xs => simp
  rw [parsePolarFile]
  simp only [hlines, List.headD_cons, hheader, List.drop_succ_cons, List.drop_zero]
  rw [if_neg hlen2, filterMap_tws_eq_map hs hnums, if_neg hlenmap,
    polarFold_eq_flatMap, List.nil_append]

/-- The spec's polar-table example file. -/
def polarContent : String := "TWA\\TWS 0 6 8 10\n45 0 5.1 6.2 6.9"

/-- C10 witness: the example table parses to exactly 3 points at angle 45
with wind speeds 6, 8, 10 and boat speeds 5.1, 6.2, 6.9. -/
theorem parsePolarFile_points_witness :
    linesOf (trimStr polarContent) = ["TWA\\TWS 0 6 8 10", "45 0 5.1 6.2 6.9"] ∧
    (["45 0 5.1 6.2 6.9"] : List String) ≠ [] ∧
    tokenize "TWA\\TWS 0 6 8 10" = ["TWA\\TWS", "0", "6", "8", "10"] ∧
    (∀ tok ∈ (["6", "8", "10"] : List String),
      (jsParseFloat (trimStr tok)).isNaN = false) ∧
    (["6", "8", "10"] : List String) ≠ [] ∧
    parsePolarFile polarContent =
      .ok (["45 0 5.1 6.2 6.9"].flatMap
        (lineSpecPoints (["6", "8", "10"].map (fun tok => jsParseFloat (trimStr tok))))) ∧
    parsePolarFile polarContent =
      .ok [⟨JSNum.num 45, JSNum.num 6, JSNum.num (51 / 10)⟩,
           ⟨JSNum.num 45, JSNum.num 8, JSNum.num (31 / 5)⟩,
           ⟨JSNum.num 45, JSNum.num 10, JSNum.num (69 / 10)⟩] := by
  have happ := parsePolarFile_points polarContent "TWA\\TWS 0 6 8 10" "TWA\\TWS" "0"
    ["45 0 5.1 6.2 6.9"] ["6", "8", "10"] (by decide) (by decide) (by decide)
    (by decide) (by decide)
  refine ⟨by decide, by decide, by decide, by decide, by decide, happ, ?_⟩
  rw [happ]
  have h51 : jsParseFloat "5.1" = JSNum.num (51 / 10) := by
    rw [show jsParseFloat "5.1" = JSNum.num ((5 : ℚ) + 1 / 10 ^ 1) from rfl]
    norm_num
  have h62 : jsParseFloat "6.2" = JSNum.num (31 / 5) := by
    rw [show jsParseFloat "6.2" = JSNum.num ((6 : ℚ) + 2 / 10 ^ 1) from rfl]
    norm_num
  have h69 : jsParseFloat "6.9" = JSNum.num (69 / 10) := by
    rw [show jsParseFloat "6.9" = JSNum.num ((6 : ℚ) + 9 / 10 ^ 1) from rfl]
    norm_num
  rw [show (["45 0 5.1 6.2 6.9"].flatMap
      (lineSpecPoints (["6", "8", "10"].map (fun tok => jsParseFloat (trimStr tok))))) =
      [⟨jsParseFloat "45", jsParseFloat "6", jsParseFloat "5.1"⟩,
       ⟨jsParseFloat "45", jsParseFloat "8", jsParseFloat "6.2"⟩,
       ⟨jsParseFloat "45", jsParseFloat "10", jsParseFloat "6.9"⟩] from rfl]
  rw [h51, h62, h69,
    show jsParseFloat "45" = JSNum.num 45 from by decide,
    show jsParseFloat "6" = JSNum.num 6 from by decide,
    show jsParseFloat "8" = JSNum.num 8 from by decide,
    show jsParseFloat "10" = JSNum.num 10 from by decide]
